import Mathlib

/-!
Verification of the birthday scheduling engine of the sandpiper repository,
a shallow embedding of sandpiper/birthdays/cog.py.

Modelling conventions:
- instants are seconds since 1970-01-01T00:00:00 UTC, as integers
  (Python datetime values compare and subtract exactly; sub-second
  resolution never matters to the scheduling logic);
- calendar dates are proleptic Gregorian day numbers relative to
  1970-01-01 (Python date objects are equivalent to such ordinals);
- timedeltas are integer numbers of seconds;
- the ambient clock (utc_now) is threaded as an explicit parameter;
- database and chat-gateway collaborators are records of functions,
  specified only at their interface boundary, exactly as the source
  consumes them.
-/

namespace Sandpiper

/-- Convert a calendar triple (year, month, day) to a day number relative to
1970-01-01, by the standard civil-calendar conversion that underlies Python
date objects. The function is total: an invalid triple such as Feb 29 of a
non-leap year denotes the day it overflows into, whereas the Python
datetime constructor would raise; no claim below depends on that corner. -/
def daysFromCivil (y m d : Int) : Int :=
  let y1 : Int := y - (if m ≤ 2 then 1 else 0)
  let era : Int := Int.fdiv y1 400
  let yoe : Int := y1 - era * 400
  let doy : Int := Int.fdiv (153 * (m + (if m > 2 then (-3 : Int) else 9)) + 2) 5 + d - 1
  let doe : Int := yoe * 365 + Int.fdiv yoe 4 - Int.fdiv yoe 100 + doy
  era * 146097 + doe - 719468

/-- Convert a day number relative to 1970-01-01 to its (year, month, day)
calendar triple. -/
def civilFromDays (z0 : Int) : Int × Int × Int :=
  let z : Int := z0 + 719468
  let era : Int := Int.fdiv z 146097
  let doe : Int := z - era * 146097
  let yoe : Int :=
    Int.fdiv (doe - Int.fdiv doe 1460 + Int.fdiv doe 36524 - Int.fdiv doe 146096) 365
  let y : Int := yoe + era * 400
  let doy : Int := doe - (365 * yoe + Int.fdiv yoe 4 - Int.fdiv yoe 100)
  let mp : Int := Int.fdiv (5 * doy + 2) 153
  let d : Int := doy - Int.fdiv (153 * mp + 2) 5 + 1
  let m : Int := mp + (if mp < 10 then 3 else -9)
  (y + (if m ≤ 2 then 1 else 0), m, d)

/-- Field accessor date.year of a Python date given as a day number. -/
def Date.year (d : Int) : Int := (civilFromDays d).1

/-- Field accessor date.month of a Python date given as a day number. -/
def Date.month (d : Int) : Int := (civilFromDays d).2.1

/-- Field accessor date.day of a Python date given as a day number. -/
def Date.day (d : Int) : Int := (civilFromDays d).2.2

/-- The UTC calendar date of an instant: datetime.date() on an aware UTC
datetime. -/
def dateOf (t : Int) : Int := Int.fdiv t 86400

/-- A timezone, modelled by the two conversions the source uses: localize
of a naive local midnight followed by astimezone(UTC), giving an absolute
instant; and astimezone of a UTC instant followed by date(), giving the
local calendar date. -/
structure Timezone where
  localizeMidnight : Int → Int → Int → Int
  localDate : Int → Int

/-- The timezone pytz.UTC. -/
def utcTimezone : Timezone where
  localizeMidnight := fun y m d => 86400 * daysFromCivil y m d
  localDate := fun t => Int.fdiv t 86400

/-- A fixed-offset timezone whose local clock reads UTC plus the given
number of seconds; used to build concrete non-UTC instances. -/
def fixedOffsetTimezone (offset : Int) : Timezone where
  localizeMidnight := fun y m d => 86400 * daysFromCivil y m d - offset
  localDate := fun t => Int.fdiv (t + offset) 86400

/-- The PrivacyType enumeration of sandpiper.user_data. -/
inductive PrivacyType
  | PUBLIC
  | PRIVATE
  deriving DecidableEq

/-- Status of an asyncio task created by the Birthdays cog. -/
inductive TaskStatus
  | pending
  | cancelled
  | done
  deriving DecidableEq

/-- A birthday-notification task: the user it will notify, the wait passed
to send_birthday_message, and its current status. -/
structure BTask where
  user : Nat
  wait : Int
  status : TaskStatus
  deriving DecidableEq

/-- State owned by the Birthdays cog: a counter of asyncio task
identifiers, the collection of task objects created so far keyed by
identifier, and the self.tasks dictionary mapping a user id to the
identifier of the task currently registered for that user. -/
structure CogState where
  nextId : Nat
  store : List (Nat × BTask)
  tasks : Nat → Option Nat

/-- The cog state at construction time: self.tasks = an empty dict, no
task objects created yet. -/
def initState : CogState where
  nextId := 0
  store := []
  tasks := fun _ => none

/-- Effect of asyncio Task.cancel() on a task object: a pending task
becomes cancelled; cancelling a finished task has no effect. -/
def cancelTask (t : BTask) : BTask :=
  if t.status = TaskStatus.pending then { t with status := TaskStatus.cancelled } else t

/-- Birthdays._try_cancel_task: if the user has a registered task, cancel
it and delete the dictionary entry; otherwise do nothing. -/
def tryCancelTask (uid : Nat) (st : CogState) : CogState :=
  match st.tasks uid with
  | none => st
  | some tid =>
    { st with
      store := st.store.map fun p => if p.1 = tid then (p.1, cancelTask p.2) else p
      tasks := fun u => if u = uid then none else st.tasks u }

/-- Birthdays._create_birthday_task: create a task running
send_birthday_message(user_id, midnight_delta), register it in self.tasks
under the user id, and attach _handle_task_exception as done callback. -/
def createBirthdayTask (uid : Nat) (midnightDelta : Int) (st : CogState) : CogState where
  nextId := st.nextId + 1
  store := st.store ++ [(st.nextId, ⟨uid, midnightDelta, TaskStatus.pending⟩)]
  tasks := fun u => if u = uid then some st.nextId else st.tasks u

/-- Birthdays._handle_task_exception, the done callback: it retrieves the
task result to swallow CancelledError and log other exceptions, and does
not mutate any cog state. -/
def handleTaskDone (t : BTask) : BTask := t

/-- Natural completion of a task: the event loop marks the task done and
invokes the done callback (_handle_task_exception). Nothing removes the
entry from self.tasks. -/
def finishTask (tid : Nat) (st : CogState) : CogState :=
  { st with
    store := st.store.map fun p =>
      if p.1 = tid ∧ p.2.status = TaskStatus.pending
      then (p.1, handleTaskDone { p.2 with status := TaskStatus.done })
      else p }

/-- The User Directory interface as the cog consumes it (the Database
object of sandpiper.user_data). Birthdays are dates (day numbers); the
stored year is irrelevant to scheduling. get_birthdays_range takes the two
bounding dates and an optional max_last_notification_time filter and
returns (user_id, birthday) pairs. -/
structure Database where
  birthday : Nat → Option Int
  timezone : Nat → Option Timezone
  privacyTimezone : Nat → PrivacyType
  privacyBirthday : Nat → PrivacyType
  privacyPreferredName : Nat → PrivacyType
  preferredName : Nat → Option String
  privacyAge : Nat → PrivacyType
  age : Nat → Option Int
  guildBirthdayChannel : Nat → Option Nat
  getBirthdaysRange : Int → Int → Option Int → List (Nat × Int)

/-- Timezone resolution in Birthdays.schedule_birthday: the stored
timezone is read only when privacy_timezone is PUBLIC, and UTC is used
when it is not PUBLIC or when the stored timezone is null. -/
def effectiveTimezone (db : Database) (uid : Nat) : Timezone :=
  let tz : Option Timezone :=
    match db.privacyTimezone uid with
    | PrivacyType.PUBLIC => db.timezone uid
    | PrivacyType.PRIVATE => none
  tz.getD utcTimezone

/-- The date of birthday_this_year computed in schedule_birthday:
datetime(today.year, birthday.month, birthday.day).date(), with
today = now.date() in UTC. -/
def birthdayThisYearDate (birthday now : Int) : Int :=
  daysFromCivil (Date.year (dateOf now)) (Date.month birthday) (Date.day birthday)

/-- midnight_delta in schedule_birthday: the localized midnight of
birthday_this_year converted to UTC, minus now. -/
def midnightDelta (tz : Timezone) (birthday now : Int) : Int :=
  tz.localizeMidnight (Date.year (dateOf now)) (Date.month birthday) (Date.day birthday) - now

/-- The decision taken by schedule_birthday once the effective timezone is
resolved: some wait when a task is created with that wait, none when no
task is created. First branch: 0 <= midnight_delta < 24h. Second branch:
midnight_delta < 0 and the local date of now equals the date of
birthday_this_year. -/
def scheduleDecision (tz : Timezone) (birthday now : Int) : Option Int :=
  let delta := midnightDelta tz birthday now
  if 0 ≤ delta ∧ delta < 86400 then some delta
  else if delta < 0 ∧ tz.localDate now = birthdayThisYearDate birthday now then some delta
  else none

/-- Birthdays.schedule_birthday: cancel any existing task for the user,
resolve the effective timezone, and create a notification task when the
decision qualifies; returns whether the birthday was scheduled, together
with the new cog state. -/
def scheduleBirthday (db : Database) (uid : Nat) (birthday now : Int) (st : CogState) :
    Bool × CogState :=
  match scheduleDecision (effectiveTimezone db uid) birthday now with
  | some w => (true, createBirthdayTask uid w (tryCancelTask uid st))
  | none => (false, tryCancelTask uid st)

/-- Birthdays.notify_change: re-read birthday and birthday privacy; if the
birthday is absent or private, cancel any pending task and stop, otherwise
recompute scheduling via schedule_birthday. -/
def notifyChange (db : Database) (uid : Nat) (now : Int) (st : CogState) : CogState :=
  match db.birthday uid, db.privacyBirthday uid with
  | none, _ => tryCancelTask uid st
  | some _, PrivacyType.PRIVATE => tryCancelTask uid st
  | some b, PrivacyType.PUBLIC => (scheduleBirthday db uid b now st).2

/-- The for loop of Birthdays.schedule_todays_birthdays: try to schedule
every returned (user_id, birthday) against the one captured now, counting
how many were newly scheduled. -/
def runBirthdayBatch (db : Database) (now : Int) :
    List (Nat × Int) → CogState → Nat → Nat × CogState
  | [], st, count => (count, st)
  | (uid, b) :: rest, st, count =>
    let r := scheduleBirthday db uid b now st
    runBirthdayBatch db now rest r.2 (if r.1 then count + 1 else count)

/-- Birthdays.schedule_todays_birthdays: capture now once, query the
directory for birthdays between today-1 and today+1 with
max_last_notification_time = now - 24h, and try to schedule each returned
user with the shared now. -/
def scheduleTodaysBirthdays (db : Database) (now : Int) (st : CogState) : Nat × CogState :=
  let today := dateOf now
  runBirthdayBatch db now
    (db.getBirthdaysRange (today - 1) (today + 1) (some (now - 86400))) st 0

/-- Spec-side restatement of the rescan pass, written from the words of
the specification: capture now once for the whole pass, query the three
calendar days today-1 .. today+1 with the 24-hour last-notification
filter, and evaluate every returned pair against that single shared now,
by a left fold. Compared against scheduleTodaysBirthdays for the
refinement claim about the rescan. -/
def rescanPassSharedNow (db : Database) (now : Int) (st : CogState) : Nat × CogState :=
  let today := dateOf now
  let batch := db.getBirthdaysRange (today - 1) (today + 1) (some (now - 86400))
  batch.foldl
    (fun acc ub =>
      let r := scheduleBirthday db ub.1 ub.2 now acc.2
      (if r.1 then acc.1 + 1 else acc.1, r.2))
    (0, st)

/-- The date range queried for past birthdays in
Birthdays.get_past_upcoming_birthdays: today - past_range .. today. -/
def pastQueryRange (now p : Int) : Int × Int :=
  (dateOf now - p, dateOf now)

/-- The date range queried for upcoming birthdays in
Birthdays.get_past_upcoming_birthdays: today + 1 .. today + upcoming_range. -/
def upcomingQueryRange (now u : Int) : Int × Int :=
  (dateOf now + 1, dateOf now + u)

/-- Membership of a date in an inclusive query range. -/
def inDateRange (d : Int) (r : Int × Int) : Prop :=
  r.1 ≤ d ∧ d ≤ r.2

/-- Birthdays.get_past_upcoming_birthdays: two directory queries, one over
the past range and one over the upcoming range, with no
last-notification-time filter. -/
def getPastUpcomingBirthdays (db : Database) (now p u : Int) :
    List (Nat × Int) × List (Nat × Int) :=
  (db.getBirthdaysRange (pastQueryRange now p).1 (pastQueryRange now p).2 none,
   db.getBirthdaysRange (upcomingQueryRange now u).1 (upcomingQueryRange now u).2 none)

/-- View of one guild as the sender uses it: its id and member resolution
(guild.get_member, giving the display name when the user is currently a
member). -/
structure GuildView where
  id : Nat
  getMember : Nat → Option String

/-- The chat gateway as the sender uses it: bot.get_user (none when the
user shares no guild with the bot, otherwise the list of mutual guilds)
and bot.get_channel resolution. -/
structure Gateway where
  mutualGuilds : Nat → Option (List GuildView)
  getChannel : Nat → Option Nat

/-- Observable outcome of one execution of send_birthday_message that
passed its suspension point: the argument handed to asyncio.sleep, the
guilds a message was sent to, and the recorded last notification time if
one was written. Message text composition (template choice and
formatting) is elided: it influences neither the registry nor the
recording behaviour. -/
structure SendOutcome where
  sleepArg : Int
  sentGuilds : List Nat
  recordedAt : Option Int

/-- Birthdays.send_birthday_message, from the suspension point on:
asyncio.sleep receives delta.total_seconds() unchanged; if bot.get_user
resolves nobody the method returns early; otherwise each mutual guild is
skipped when the member, the configured birthday channel, or the channel
object cannot be resolved, a message is sent to the rest, and the last
notification time is recorded after the loop. -/
def sendBirthdayMessage (gw : Gateway) (db : Database) (uid : Nat) (delta : Int)
    (now : Int) : SendOutcome :=
  let sleepArg := delta
  match gw.mutualGuilds uid with
  | none => { sleepArg := sleepArg, sentGuilds := [], recordedAt := none }
  | some guilds =>
    let sent := guilds.filterMap fun g =>
      match g.getMember uid with
      | none => none
      | some _ =>
        match db.guildBirthdayChannel g.id with
        | none => none
        | some cid =>
          match gw.getChannel cid with
          | none => none
          | some _ => some g.id
    { sleepArg := sleepArg, sentGuilds := sent, recordedAt := some now }

/-- Semantics of the sleep primitive asyncio.sleep: a non-positive delay
returns after a bare yield, so the slept duration is the delay clamped to
zero. -/
def asyncioSleepDuration (d : Int) : Int := max d 0

/-- The User Directory with fallible reads: any directory call awaited by
schedule_birthday may raise (data-unavailable). Used to study how an
exception raised while scheduling one user travels through the rescan
pass; the range query itself is kept infallible since the claim concerns
per-user attempts. -/
structure DatabaseE where
  privacyTimezone : Nat → Except String PrivacyType
  timezone : Nat → Except String (Option Timezone)
  getBirthdaysRange : Int → Int → Option Int → List (Nat × Int)

/-- Birthdays.schedule_birthday over the fallible directory: the cancel
happens first, then the directory reads, any of which may raise; a raised
exception leaves the state as mutated so far and propagates to the
caller. -/
def scheduleBirthdayE (db : DatabaseE) (uid : Nat) (birthday now : Int) (st : CogState) :
    CogState × Except String Bool :=
  let st1 := tryCancelTask uid st
  match db.privacyTimezone uid with
  | Except.error e => (st1, Except.error e)
  | Except.ok pt =>
    match (match pt with
           | PrivacyType.PUBLIC => db.timezone uid
           | PrivacyType.PRIVATE => Except.ok none) with
    | Except.error e => (st1, Except.error e)
    | Except.ok tzo =>
      match scheduleDecision (tzo.getD utcTimezone) birthday now with
      | some w => (createBirthdayTask uid w st1, Except.ok true)
      | none => (st1, Except.ok false)

/-- The for loop of schedule_todays_birthdays over the fallible directory.
The source wraps no per-user handler around the loop body, so the first
exception aborts the iteration and propagates, carrying the state mutated
so far. -/
def runBirthdayBatchE (db : DatabaseE) (now : Int) :
    List (Nat × Int) → CogState → Nat → CogState × Except String Nat
  | [], st, count => (st, Except.ok count)
  | (uid, b) :: rest, st, count =>
    match scheduleBirthdayE db uid b now st with
    | (st1, Except.error e) => (st1, Except.error e)
    | (st1, Except.ok r) =>
      runBirthdayBatchE db now rest st1 (if r then count + 1 else count)

/-- Birthdays.schedule_todays_birthdays over the fallible directory. -/
def scheduleTodaysBirthdaysE (db : DatabaseE) (now : Int) (st : CogState) :
    CogState × Except String Nat :=
  let today := dateOf now
  runBirthdayBatchE db now
    (db.getBirthdaysRange (today - 1) (today + 1) (some (now - 86400))) st 0

/-- One tick of daily_loop: it awaits schedule_todays_birthdays and any
exception escaping it is caught by the discord.ext.tasks error handler
daily_loop_error, which only logs, so the loop itself survives with the
state mutated so far. -/
def dailyLoopOnce (db : DatabaseE) (now : Int) (st : CogState) : CogState :=
  (scheduleTodaysBirthdaysE db now st).1

/-- Number of live (pending) notification tasks for a user among all task
objects created so far. -/
def pendingFor (uid : Nat) (st : CogState) : Nat :=
  st.store.countP fun p => decide (p.2.user = uid ∧ p.2.status = TaskStatus.pending)

/-- The wait of the task currently registered for a user, when there is
one. -/
def taskWaitFor (uid : Nat) (st : CogState) : Option Int :=
  (st.tasks uid).bind fun tid =>
    (st.store.find? fun p => p.1 == tid).map fun p => p.2.wait

/-- Well-formedness of the cog state: every stored task identifier was
issued by the counter, identifiers are unique, and every pending task is
the one the self.tasks dictionary registers for its user. -/
def WF (st : CogState) : Prop :=
  (∀ p ∈ st.store, p.1 < st.nextId)
  ∧ (st.store.map Prod.fst).Nodup
  ∧ (∀ p ∈ st.store, p.2.status = TaskStatus.pending → st.tasks p.2.user = some p.1)

theorem WF_initState : WF initState := by
  refine ⟨?_, ?_, ?_⟩ <;> simp [initState]

theorem tasks_tryCancelTask (uid : Nat) (st : CogState) :
    (tryCancelTask uid st).tasks uid = none := by
  unfold tryCancelTask
  cases h : st.tasks uid with
  | none => exact h
  | some tid => simp

theorem nextId_tryCancelTask (uid : Nat) (st : CogState) :
    (tryCancelTask uid st).nextId = st.nextId := by
  unfold tryCancelTask
  cases h : st.tasks uid <;> rfl

theorem pendingFor_eq_zero_of_tasks_none (uid : Nat) (st : CogState)
    (hwf : WF st) (h : st.tasks uid = none) : pendingFor uid st = 0 := by
  refine List.countP_eq_zero.mpr ?_
  intro p hp
  simp only [decide_eq_true_eq, not_and]
  intro hu hs
  have := hwf.2.2 p hp hs
  rw [hu, h] at this
  exact Option.noConfusion this

theorem pendingFor_tryCancelTask (uid : Nat) (st : CogState) (hwf : WF st) :
    pendingFor uid (tryCancelTask uid st) = 0 := by
  unfold tryCancelTask
  cases h : st.tasks uid with
  | none => exact pendingFor_eq_zero_of_tasks_none uid st hwf h
  | some tid =>
    unfold pendingFor
    simp only [List.countP_map]
    refine List.countP_eq_zero.mpr ?_
    intro p hp
    simp only [Function.comp_apply, decide_eq_true_eq, not_and]
    by_cases heq : p.1 = tid
    · simp only [heq, if_pos rfl]
      intro _ hs
      unfold cancelTask at hs
      by_cases hps : p.2.status = TaskStatus.pending <;> simp [hps] at hs
    · simp only [if_neg heq]
      intro hu hs
      have := hwf.2.2 p hp hs
      rw [hu, h] at this
      exact heq (Option.some_injective _ this.symm)

theorem WF_tryCancelTask (uid : Nat) (st : CogState) (hwf : WF st) :
    WF (tryCancelTask uid st) := by
  unfold tryCancelTask
  cases h : st.tasks uid with
  | none => exact hwf
  | some tid =>
    have hfst : ∀ q : Nat × BTask,
        (if q.1 = tid then (q.1, cancelTask q.2) else q).1 = q.1 := by
      intro q; by_cases hq : q.1 = tid <;> simp [hq]
    refine ⟨?_, ?_, ?_⟩
    · intro p hp
      obtain ⟨q, hq, rfl⟩ := List.mem_map.mp hp
      simpa [hfst q] using hwf.1 q hq
    · have : (st.store.map fun q =>
          if q.1 = tid then (q.1, cancelTask q.2) else q).map Prod.fst
          = st.store.map Prod.fst := by
        rw [List.map_map]
        exact List.map_congr_left fun a _ => hfst a
      simpa [this] using hwf.2.1
    · intro p hp hs
      obtain ⟨q, hq, rfl⟩ := List.mem_map.mp hp
      by_cases heq : q.1 = tid
      · exfalso
        simp only [heq, if_pos rfl] at hs
        unfold cancelTask at hs
        by_cases hqs : q.2.status = TaskStatus.pending <;> simp [hqs] at hs
      · simp only [if_neg heq] at hs ⊢
        have hq2 := hwf.2.2 q hq hs
        have hne : q.2.user ≠ uid := by
          intro habs
          rw [habs, h] at hq2
          exact heq (Option.some_injective _ hq2.symm)
        simp [hne, hq2]

theorem pendingFor_createBirthdayTask (uid v : Nat) (w : Int) (st : CogState) :
    pendingFor v (createBirthdayTask uid w st)
      = pendingFor v st + (if uid = v then 1 else 0) := by
  unfold pendingFor createBirthdayTask
  rw [List.countP_append]
  by_cases huv : uid = v <;> simp [huv]

theorem WF_createBirthdayTask (uid : Nat) (w : Int) (st : CogState)
    (hwf : WF st) (hnone : st.tasks uid = none) :
    WF (createBirthdayTask uid w st) := by
  refine ⟨?_, ?_, ?_⟩
  · intro p hp
    rcases List.mem_append.mp hp with hmem | hmem
    · exact Nat.lt_succ_of_lt (hwf.1 p hmem)
    · simp only [List.mem_singleton] at hmem
      subst hmem
      exact Nat.lt_succ_self _
  · unfold createBirthdayTask
    simp only [List.map_append, List.map_cons, List.map_nil]
    rw [List.nodup_append]
    refine ⟨hwf.2.1, List.nodup_singleton _, ?_⟩
    intro a ha
    simp only [List.mem_singleton]
    obtain ⟨q, hq, rfl⟩ := List.mem_map.mp ha
    exact fun habs => absurd (habs ▸ hwf.1 q hq) (Nat.lt_irrefl _)
  · intro p hp hs
    rcases List.mem_append.mp hp with hmem | hmem
    · have hq2 := hwf.2.2 p hmem hs
      have hne : p.2.user ≠ uid := by
        intro habs
        rw [habs, hnone] at hq2
        exact Option.noConfusion hq2
      simpa [createBirthdayTask, hne] using hq2
    · simp only [List.mem_singleton] at hmem
      subst hmem
      simp [createBirthdayTask]

theorem pendingFor_le_one (uid : Nat) (st : CogState) (hwf : WF st) :
    pendingFor uid st ≤ 1 := by
  cases h : st.tasks uid with
  | none => simp [pendingFor_eq_zero_of_tasks_none uid st hwf h]
  | some tid =>
    have h1 : pendingFor uid st ≤ st.store.countP fun p => p.1 == tid := by
      refine List.countP_mono_left ?_
      intro p hp hpred
      simp only [decide_eq_true_eq] at hpred
      have := hwf.2.2 p hp hpred.2
      rw [hpred.1, h] at this
      simp [Option.some_injective _ this.symm]
    have h2 : (st.store.countP fun p => p.1 == tid)
        = (st.store.map Prod.fst).count tid := by
      rw [List.count_eq_countP, List.countP_map]
      rfl
    have h3 := List.nodup_iff_count_le_one.mp hwf.2.1 tid
    omega

theorem scheduleBirthday_fst (db : Database) (uid : Nat) (b now : Int) (st : CogState) :
    (scheduleBirthday db uid b now st).1
      = (scheduleDecision (effectiveTimezone db uid) b now).isSome := by
  unfold scheduleBirthday
  cases scheduleDecision (effectiveTimezone db uid) b now <;> rfl

theorem WF_scheduleBirthday (db : Database) (uid : Nat) (b now : Int) (st : CogState)
    (hwf : WF st) : WF (scheduleBirthday db uid b now st).2 := by
  unfold scheduleBirthday
  cases scheduleDecision (effectiveTimezone db uid) b now with
  | none => exact WF_tryCancelTask uid st hwf
  | some w =>
    exact WF_createBirthdayTask uid w _ (WF_tryCancelTask uid st hwf)
      (tasks_tryCancelTask uid st)

theorem WF_notifyChange (db : Database) (uid : Nat) (now : Int) (st : CogState)
    (hwf : WF st) : WF (notifyChange db uid now st) := by
  unfold notifyChange
  cases db.birthday uid with
  | none => exact WF_tryCancelTask uid st hwf
  | some b =>
    cases db.privacyBirthday uid with
    | PRIVATE => exact WF_tryCancelTask uid st hwf
    | PUBLIC => exact WF_scheduleBirthday db uid b now st hwf

theorem pendingFor_scheduleBirthday_true (db : Database) (uid : Nat) (b now : Int)
    (st : CogState) (hwf : WF st) (h : (scheduleBirthday db uid b now st).1 = true) :
    pendingFor uid (scheduleBirthday db uid b now st).2 = 1 := by
  rw [scheduleBirthday_fst] at h
  obtain ⟨w, hd⟩ := Option.isSome_iff_exists.mp h
  unfold scheduleBirthday
  rw [hd]
  rw [pendingFor_createBirthdayTask, pendingFor_tryCancelTask uid st hwf]
  simp

theorem taskWaitFor_createBirthdayTask (uid : Nat) (w : Int) (st : CogState)
    (hlt : ∀ p ∈ st.store, p.1 < st.nextId) :
    taskWaitFor uid (createBirthdayTask uid w st) = some w := by
  have hnone : (st.store.find? fun p => p.1 == st.nextId) = none := by
    refine List.find?_eq_none.mpr ?_
    intro p hp
    simp only [beq_iff_eq]
    exact Nat.ne_of_lt (hlt p hp)
  unfold taskWaitFor createBirthdayTask
  simp [hnone]

theorem scheduleDecision_eq (tz : Timezone) (b now : Int) :
    scheduleDecision tz b now =
      if 0 ≤ midnightDelta tz b now ∧ midnightDelta tz b now < 86400
      then some (midnightDelta tz b now)
      else if midnightDelta tz b now < 0
          ∧ tz.localDate now = birthdayThisYearDate b now
      then some (midnightDelta tz b now)
      else none := rfl

theorem scheduleBirthday_of_decision_some (db : Database) (uid : Nat) (b now w : Int)
    (st : CogState) (hwf : WF st)
    (hd : scheduleDecision (effectiveTimezone db uid) b now = some w) :
    (scheduleBirthday db uid b now st).1 = true
    ∧ taskWaitFor uid (scheduleBirthday db uid b now st).2 = some w
    ∧ pendingFor uid (scheduleBirthday db uid b now st).2 = 1 := by
  unfold scheduleBirthday
  rw [hd]
  refine ⟨rfl, ?_, ?_⟩
  · exact taskWaitFor_createBirthdayTask uid w _ (WF_tryCancelTask uid st hwf).1
  · rw [pendingFor_createBirthdayTask, pendingFor_tryCancelTask uid st hwf]
    simp

theorem scheduleBirthday_of_decision_none (db : Database) (uid : Nat) (b now : Int)
    (st : CogState)
    (hd : scheduleDecision (effectiveTimezone db uid) b now = none) :
    (scheduleBirthday db uid b now st).1 = false
    ∧ (scheduleBirthday db uid b now st).2 = tryCancelTask uid st := by
  unfold scheduleBirthday
  rw [hd]
  exact ⟨rfl, rfl⟩

/-- Claim C1: for every (birthday, timezone, now), schedule_birthday
returns true and creates a task whose wait equals
delta = localized midnight of birthday_this_year minus now exactly when
0 <= delta < 24h; it also returns true and creates a task with the
negative delta when delta < 0 and the calendar date of now in the
effective timezone equals the date of birthday_this_year; in every other
case it returns false and registers no new task for that user. -/
theorem scheduleBirthday_window_spec (db : Database) (uid : Nat) (b now : Int)
    (st : CogState) (hwf : WF st) :
    ((0 ≤ midnightDelta (effectiveTimezone db uid) b now
        ∧ midnightDelta (effectiveTimezone db uid) b now < 86400) →
      (scheduleBirthday db uid b now st).1 = true
      ∧ taskWaitFor uid (scheduleBirthday db uid b now st).2
          = some (midnightDelta (effectiveTimezone db uid) b now)
      ∧ pendingFor uid (scheduleBirthday db uid b now st).2 = 1)
    ∧ ((midnightDelta (effectiveTimezone db uid) b now < 0
        ∧ (effectiveTimezone db uid).localDate now = birthdayThisYearDate b now) →
      (scheduleBirthday db uid b now st).1 = true
      ∧ taskWaitFor uid (scheduleBirthday db uid b now st).2
          = some (midnightDelta (effectiveTimezone db uid) b now)
      ∧ pendingFor uid (scheduleBirthday db uid b now st).2 = 1)
    ∧ (¬(0 ≤ midnightDelta (effectiveTimezone db uid) b now
        ∧ midnightDelta (effectiveTimezone db uid) b now < 86400) →
      ¬(midnightDelta (effectiveTimezone db uid) b now < 0
        ∧ (effectiveTimezone db uid).localDate now = birthdayThisYearDate b now) →
      (scheduleBirthday db uid b now st).1 = false
      ∧ (scheduleBirthday db uid b now st).2.nextId = st.nextId
      ∧ (scheduleBirthday db uid b now st).2.tasks uid = none
      ∧ pendingFor uid (scheduleBirthday db uid b now st).2 = 0) := by
  refine ⟨?_, ?_, ?_⟩
  · intro h1
    refine scheduleBirthday_of_decision_some db uid b now _ st hwf ?_
    rw [scheduleDecision_eq, if_pos h1]
  · intro h2
    refine scheduleBirthday_of_decision_some db uid b now _ st hwf ?_
    have hn1 : ¬(0 ≤ midnightDelta (effectiveTimezone db uid) b now
        ∧ midnightDelta (effectiveTimezone db uid) b now < 86400) := by
      intro habs
      exact absurd h2.1 (not_lt.mpr habs.1)
    rw [scheduleDecision_eq, if_neg hn1, if_pos h2]
  · intro hn1 hn2
    have hd : scheduleDecision (effectiveTimezone db uid) b now = none := by
      rw [scheduleDecision_eq, if_neg hn1, if_neg hn2]
    obtain ⟨hfst, hst⟩ := scheduleBirthday_of_decision_none db uid b now st hd
    refine ⟨hfst, ?_, ?_, ?_⟩
    · rw [hst]; exact nextId_tryCancelTask uid st
    · rw [hst]; exact tasks_tryCancelTask uid st
    · rw [hst]; exact pendingFor_tryCancelTask uid st hwf

/-- Claim C2: at most one task per user exists at any time: the three
registry operations preserve well-formedness and the at-most-one-pending
bound, schedule_birthday always cancels any existing task for the user
before creating a new one, and calling schedule_birthday twice in
succession with the same inputs leaves exactly one live task for that
user. -/
theorem taskRegistry_at_most_one (db : Database) (uid : Nat) (b now : Int)
    (st : CogState) (hwf : WF st) :
    WF (tryCancelTask uid st)
    ∧ WF (scheduleBirthday db uid b now st).2
    ∧ WF (notifyChange db uid now st)
    ∧ (∀ v, pendingFor v (tryCancelTask uid st) ≤ 1)
    ∧ (∀ v, pendingFor v (scheduleBirthday db uid b now st).2 ≤ 1)
    ∧ (∀ v, pendingFor v (notifyChange db uid now st) ≤ 1)
    ∧ ((scheduleBirthday db uid b now st).1 = false →
        (scheduleBirthday db uid b now st).2 = tryCancelTask uid st)
    ∧ ((scheduleBirthday db uid b now st).1 = true →
        (∃ w, (scheduleBirthday db uid b now st).2
            = createBirthdayTask uid w (tryCancelTask uid st))
        ∧ pendingFor uid
            (scheduleBirthday db uid b now (scheduleBirthday db uid b now st).2).2
          = 1) := by
  have hwfc := WF_tryCancelTask uid st hwf
  have hwfs := WF_scheduleBirthday db uid b now st hwf
  refine ⟨hwfc, hwfs, WF_notifyChange db uid now st hwf,
    fun v => pendingFor_le_one v _ hwfc,
    fun v => pendingFor_le_one v _ hwfs,
    fun v => pendingFor_le_one v _ (WF_notifyChange db uid now st hwf),
    ?_, ?_⟩
  · intro hfalse
    rw [scheduleBirthday_fst] at hfalse
    obtain hd : scheduleDecision (effectiveTimezone db uid) b now = none := by
      cases hdd : scheduleDecision (effectiveTimezone db uid) b now with
      | none => rfl
      | some w => rw [hdd] at hfalse; exact absurd hfalse (by simp)
    exact (scheduleBirthday_of_decision_none db uid b now st hd).2
  · intro htrue
    constructor
    · have h1 := htrue
      rw [scheduleBirthday_fst] at h1
      obtain ⟨w, hd⟩ := Option.isSome_iff_exists.mp h1
      refine ⟨w, ?_⟩
      unfold scheduleBirthday
      rw [hd]
    · refine pendingFor_scheduleBirthday_true db uid b now _ hwfs ?_
      rw [scheduleBirthday_fst] at htrue ⊢
      exact htrue

/-- Claim C3: when privacy_timezone is not PUBLIC the outcome of
schedule_birthday is identical for any two stored timezone assignments,
the effective timezone is UTC, and it is also UTC whenever the stored
timezone is absent. -/
theorem scheduleBirthday_timezone_noninterference (db : Database)
    (f g : Nat → Option Timezone) (uid : Nat) (b now : Int) (st : CogState)
    (h : db.privacyTimezone uid ≠ PrivacyType.PUBLIC) :
    scheduleBirthday { db with timezone := f } uid b now st
      = scheduleBirthday { db with timezone := g } uid b now st
    ∧ effectiveTimezone { db with timezone := f } uid = utcTimezone
    ∧ (∀ db2 : Database, db2.timezone uid = none →
        effectiveTimezone db2 uid = utcTimezone) := by
  have hpt : db.privacyTimezone uid = PrivacyType.PRIVATE := by
    cases hc : db.privacyTimezone uid with
    | PUBLIC => exact absurd hc h
    | PRIVATE => rfl
  have heff : ∀ k : Nat → Option Timezone,
      effectiveTimezone { db with timezone := k } uid = utcTimezone := by
    intro k
    unfold effectiveTimezone
    simp [hpt]
  refine ⟨?_, heff f, ?_⟩
  · unfold scheduleBirthday
    rw [heff f, heff g]
  · intro db2 h2
    unfold effectiveTimezone
    cases hc : db2.privacyTimezone uid <;> simp [h2]

/-- Claim C6: notify_change with the stored birthday absent or birthday
privacy PRIVATE cancels any pending task for the user and does not
reschedule, leaving zero live tasks for that user; otherwise it calls
schedule_birthday with the re-read birthday. -/
theorem notifyChange_private_or_absent (db : Database) (uid : Nat) (now : Int)
    (st : CogState) (hwf : WF st) :
    ((db.birthday uid = none ∨ db.privacyBirthday uid = PrivacyType.PRIVATE) →
      notifyChange db uid now st = tryCancelTask uid st
      ∧ (notifyChange db uid now st).tasks uid = none
      ∧ pendingFor uid (notifyChange db uid now st) = 0)
    ∧ (∀ b, db.birthday uid = some b → db.privacyBirthday uid = PrivacyType.PUBLIC →
        notifyChange db uid now st = (scheduleBirthday db uid b now st).2) := by
  constructor
  · intro hcase
    have hcancel : notifyChange db uid now st = tryCancelTask uid st := by
      unfold notifyChange
      rcases hcase with hb | hp
      · rw [hb]
      · cases hb : db.birthday uid with
        | none => rfl
        | some b => rw [hp]
    refine ⟨hcancel, ?_, ?_⟩
    · rw [hcancel]; exact tasks_tryCancelTask uid st
    · rw [hcancel]; exact pendingFor_tryCancelTask uid st hwf
  · intro b hb hp
    unfold notifyChange
    rw [hb, hp]

theorem runBirthdayBatch_eq_foldl (db : Database) (now : Int) :
    ∀ (l : List (Nat × Int)) (st : CogState) (c : Nat),
      runBirthdayBatch db now l st c
        = l.foldl
            (fun acc ub =>
              let r := scheduleBirthday db ub.1 ub.2 now acc.2
              (if r.1 then acc.1 + 1 else acc.1, r.2))
            (c, st)
  | [], st, c => rfl
  | (uid, b) :: rest, st, c => by
    rw [List.foldl_cons]
    show runBirthdayBatch db now rest (scheduleBirthday db uid b now st).2
        (if (scheduleBirthday db uid b now st).1 then c + 1 else c)
      = _
    rw [runBirthdayBatch_eq_foldl db now rest]

/-- Claim C7: the rescan pass captures now once, queries the directory for
the three UTC calendar days today-1 .. today+1 with
max_last_notification_time = now - 24h, and evaluates every returned
(user_id, birthday) against that single shared now: the code refines the
spec-side single-now fold, and the query arguments are exactly the stated
window and filter. -/
theorem rescan_shared_now_refines (db : Database) (now : Int) (st : CogState) :
    scheduleTodaysBirthdays db now st = rescanPassSharedNow db now st
    ∧ scheduleTodaysBirthdays db now st
      = runBirthdayBatch db now
          (db.getBirthdaysRange (dateOf now - 1) (dateOf now + 1) (some (now - 86400)))
          st 0 := by
  constructor
  · unfold scheduleTodaysBirthdays rescanPassSharedNow
    exact runBirthdayBatch_eq_foldl db now _ st 0
  · rfl

/-- Claim C10: with nonnegative day ranges, get_past_upcoming_birthdays
queries the past list over today - p .. today and the upcoming list over
today + 1 .. today + u; the two queried ranges are disjoint, and a
birthday falling on today is queried only for the past list, never for
the upcoming list. -/
theorem pastUpcoming_ranges_disjoint (db : Database) (now p u : Int)
    (hp : 0 ≤ p) (_hu : 0 ≤ u) :
    getPastUpcomingBirthdays db now p u
      = (db.getBirthdaysRange (dateOf now - p) (dateOf now) none,
         db.getBirthdaysRange (dateOf now + 1) (dateOf now + u) none)
    ∧ (∀ d : Int, inDateRange d (pastQueryRange now p) →
        ¬ inDateRange d (upcomingQueryRange now u))
    ∧ inDateRange (dateOf now) (pastQueryRange now p)
    ∧ ¬ inDateRange (dateOf now) (upcomingQueryRange now u) := by
  refine ⟨rfl, ?_, ?_, ?_⟩
  · intro d hd hu2
    simp only [inDateRange, pastQueryRange, upcomingQueryRange] at hd hu2
    omega
  · simp only [inDateRange, pastQueryRange]
    omega
  · simp only [inDateRange, upcomingQueryRange]
    omega

/-- Claim C4 (amended): an exception raised while scheduling the first
user of a rescan batch propagates out of schedule_todays_birthdays,
leaving the remaining users of the pass unattempted, and is caught one
level up by the daily_loop error handler, so the loop itself survives
with the state as mutated so far. -/
theorem rescan_error_aborts_batch (db : DatabaseE) (now : Int) (st : CogState)
    (uid : Nat) (b : Int) (rest : List (Nat × Int)) (e : String)
    (hbatch : db.getBirthdaysRange (dateOf now - 1) (dateOf now + 1) (some (now - 86400))
        = (uid, b) :: rest)
    (herr : (scheduleBirthdayE db uid b now st).2 = Except.error e) :
    (scheduleTodaysBirthdaysE db now st).2 = Except.error e
    ∧ (scheduleTodaysBirthdaysE db now st).1 = (scheduleBirthdayE db uid b now st).1
    ∧ dailyLoopOnce db now st = (scheduleBirthdayE db uid b now st).1 := by
  have hx : scheduleBirthdayE db uid b now st
      = ((scheduleBirthdayE db uid b now st).1, Except.error e) := by
    rw [← herr]
  have hrun : scheduleTodaysBirthdaysE db now st
      = ((scheduleBirthdayE db uid b now st).1, Except.error e) := by
    show runBirthdayBatchE db now
        (db.getBirthdaysRange (dateOf now - 1) (dateOf now + 1) (some (now - 86400)))
        st 0
      = ((scheduleBirthdayE db uid b now st).1, Except.error e)
    rw [hbatch]
    unfold runBirthdayBatchE
    rw [hx]
  exact ⟨by rw [hrun], by rw [hrun], by unfold dailyLoopOnce; rw [hrun]⟩

/-- A fallible directory on which reading the first user raises while the
second user is readable and qualifies for scheduling. -/
def dbE0 : DatabaseE where
  privacyTimezone := fun u =>
    if u = 1 then Except.error "user data unavailable" else Except.ok PrivacyType.PUBLIC
  timezone := fun _ => Except.ok none
  getBirthdaysRange := fun _ _ _ => [(1, 0), (2, 0)]

/-- Counterexample to claim C4 as stated: with a batch of two users where
reading the first raises, the exception is not caught inside the per-user
iteration; it propagates out of schedule_todays_birthdays, and the second
user, who would have been scheduled on their own, ends the pass with no
task. -/
theorem rescan_isolation_cex :
    (scheduleTodaysBirthdaysE dbE0 0 initState).2
        = Except.error "user data unavailable"
    ∧ (scheduleTodaysBirthdaysE dbE0 0 initState).1.tasks 2 = none
    ∧ (scheduleBirthdayE dbE0 2 0 0 initState).2 = Except.ok true :=
  ⟨rfl, rfl, rfl⟩

/-- Witness for the amended claim C4 at a concrete input. -/
theorem rescan_error_aborts_batch_witness :
    dbE0.getBirthdaysRange (dateOf 0 - 1) (dateOf 0 + 1) (some (0 - 86400))
        = (1, 0) :: [(2, 0)]
    ∧ (scheduleBirthdayE dbE0 1 0 0 initState).2
        = Except.error "user data unavailable"
    ∧ dailyLoopOnce dbE0 0 initState = (scheduleBirthdayE dbE0 1 0 0 initState).1 :=
  ⟨rfl, rfl,
    (rescan_error_aborts_batch dbE0 0 initState 1 0 [(2, 0)]
      "user data unavailable" rfl rfl).2.2⟩

/-- A concrete directory: user birthdays on 1970-01-01, no stored
timezone, everything public, no guild channels configured. -/
def db0 : Database where
  birthday := fun _ => some 0
  timezone := fun _ => none
  privacyTimezone := fun _ => PrivacyType.PUBLIC
  privacyBirthday := fun _ => PrivacyType.PUBLIC
  privacyPreferredName := fun _ => PrivacyType.PUBLIC
  preferredName := fun _ => none
  privacyAge := fun _ => PrivacyType.PUBLIC
  age := fun _ => none
  guildBirthdayChannel := fun _ => none
  getBirthdaysRange := fun _ _ _ => []

/-- Claim C5 (amended): for every execution of the sender that passes its
suspension point and whose user resolves through the gateway, the last
notification time is recorded unconditionally after the guild loop, also
when every guild was skipped; when the gateway cannot resolve the user at
all (no shared guild), the sender returns early without recording. -/
theorem send_records_when_user_resolves (gw : Gateway) (db : Database)
    (uid : Nat) (delta now : Int) (gs : List GuildView)
    (h : gw.mutualGuilds uid = some gs) :
    (sendBirthdayMessage gw db uid delta now).recordedAt = some now := by
  unfold sendBirthdayMessage
  rw [h]

/-- A gateway that resolves no user at all. -/
def gwNoMutual : Gateway where
  mutualGuilds := fun _ => none
  getChannel := fun _ => none

/-- Counterexample to claim C5 as stated: an execution that passes its
suspension point with the user resolvable in no guild returns early and
records no last notification time. -/
theorem send_record_skipped_cex :
    (sendBirthdayMessage gwNoMutual db0 7 0 5).recordedAt = none := rfl

/-- A guild in which the user cannot be resolved as a member. -/
def guildNoMember : GuildView where
  id := 3
  getMember := fun _ => none

/-- A gateway resolving user 7 with exactly one mutual guild, which is
ineligible for a message. -/
def gwOneGuild : Gateway where
  mutualGuilds := fun u => if u = 7 then some [guildNoMember] else none
  getChannel := fun _ => none

/-- Witness for the amended claim C5 at a concrete input: zero guilds were
eligible, yet the notification time is recorded. -/
theorem send_records_when_user_resolves_witness :
    gwOneGuild.mutualGuilds 7 = some [guildNoMember]
    ∧ (sendBirthdayMessage gwOneGuild db0 7 (-5) 9).recordedAt = some 9
    ∧ (sendBirthdayMessage gwOneGuild db0 7 (-5) 9).sentGuilds = [] :=
  ⟨rfl,
    send_records_when_user_resolves gwOneGuild db0 7 (-5) 9 [guildNoMember] rfl,
    rfl⟩

/-- Claim C8 (amended): the argument handed to asyncio.sleep is delta
itself, unclamped; the effective slept duration nevertheless equals
max(delta, 0), because the sleep primitive treats a non-positive delay as
a zero-duration wait. -/
theorem sleep_primitive_argument (gw : Gateway) (db : Database)
    (uid : Nat) (delta now : Int) :
    (sendBirthdayMessage gw db uid delta now).sleepArg = delta
    ∧ asyncioSleepDuration (sendBirthdayMessage gw db uid delta now).sleepArg
        = max delta 0 := by
  have h : (sendBirthdayMessage gw db uid delta now).sleepArg = delta := by
    unfold sendBirthdayMessage
    cases gw.mutualGuilds uid <;> rfl
  exact ⟨h, by rw [h]; rfl⟩

/-- Counterexample to claim C8 as stated: at delta = -600 seconds the
value handed to the sleep primitive is -600, not max(delta, 0) = 0. -/
theorem sleep_clamp_cex :
    ¬ (sendBirthdayMessage gwNoMutual db0 1 (-600) 0).sleepArg
        = max (-600 : Int) 0 := by
  decide

/-- Claim C9 (amended): natural completion of a notification task leaves
the self.tasks dictionary unchanged, so the completed task entry remains
registered for its user; the entry is removed only when a later cancel or
reschedule for that user runs _try_cancel_task. -/
theorem task_done_entry_retained (st : CogState) (tid uid : Nat) :
    (finishTask tid st).tasks = st.tasks
    ∧ (tryCancelTask uid (finishTask tid st)).tasks uid = none :=
  ⟨rfl, tasks_tryCancelTask uid _⟩

/-- Counterexample to claim C9 as stated: after the task created for user
1 runs to natural completion, the registry still maps user 1 to the
completed task. -/
theorem task_done_removed_cex :
    (finishTask 0 ((scheduleBirthday db0 1 0 0 initState).2)).tasks 1 = some 0
    ∧ (finishTask 0 ((scheduleBirthday db0 1 0 0 initState).2)).store
        = [(0, ⟨1, 0, TaskStatus.done⟩)] :=
  ⟨rfl, rfl⟩

/-- Witness for claim C1 at a concrete input: a birthday on 1970-01-01
with now at the UTC midnight of that day falls in the first window and is
scheduled with wait zero. -/
theorem scheduleBirthday_window_spec_witness :
    WF initState
    ∧ (0 ≤ midnightDelta (effectiveTimezone db0 1) 0 0
        ∧ midnightDelta (effectiveTimezone db0 1) 0 0 < 86400)
    ∧ ((scheduleBirthday db0 1 0 0 initState).1 = true
      ∧ taskWaitFor 1 (scheduleBirthday db0 1 0 0 initState).2
          = some (midnightDelta (effectiveTimezone db0 1) 0 0)
      ∧ pendingFor 1 (scheduleBirthday db0 1 0 0 initState).2 = 1) :=
  ⟨WF_initState, by decide,
    (scheduleBirthday_window_spec db0 1 0 0 initState WF_initState).1 (by decide)⟩

/-- Witness for claim C2 at a concrete input: scheduling the same
qualifying birthday twice from the empty registry leaves exactly one live
task for the user. -/
theorem taskRegistry_at_most_one_witness :
    WF initState
    ∧ (scheduleBirthday db0 1 0 0 initState).1 = true
    ∧ pendingFor 1
        (scheduleBirthday db0 1 0 0 (scheduleBirthday db0 1 0 0 initState).2).2 = 1 :=
  ⟨WF_initState, by decide,
    ((taskRegistry_at_most_one db0 1 0 0 initState
        WF_initState).2.2.2.2.2.2.2 (by decide)).2⟩

/-- A directory whose timezone privacy is PRIVATE for every user. -/
def dbPrivTz : Database :=
  { db0 with privacyTimezone := fun _ => PrivacyType.PRIVATE }

/-- A concrete non-UTC timezone, five hours ahead of UTC. -/
def tzPlus5 : Timezone := fixedOffsetTimezone 18000

/-- Witness for claim C3 at a concrete input: with timezone privacy not
PUBLIC, storing a UTC+5 timezone and storing none give identical
schedule_birthday outcomes. -/
theorem scheduleBirthday_timezone_noninterference_witness :
    dbPrivTz.privacyTimezone 1 ≠ PrivacyType.PUBLIC
    ∧ scheduleBirthday { dbPrivTz with timezone := fun _ => some tzPlus5 } 1 0 0 initState
        = scheduleBirthday { dbPrivTz with timezone := fun _ => none } 1 0 0 initState :=
  ⟨by decide,
    (scheduleBirthday_timezone_noninterference dbPrivTz
      (fun _ => some tzPlus5) (fun _ => none) 1 0 0 initState (by decide)).1⟩

/-- A directory with no stored birthday for any user. -/
def dbNoBday : Database := { db0 with birthday := fun _ => none }

/-- Witness for claim C6 at a concrete input: with the stored birthday
absent, notify_change leaves zero live tasks for the user. -/
theorem notifyChange_private_or_absent_witness :
    WF initState
    ∧ (dbNoBday.birthday 1 = none ∨ dbNoBday.privacyBirthday 1 = PrivacyType.PRIVATE)
    ∧ ((notifyChange dbNoBday 1 0 initState).tasks 1 = none
        ∧ pendingFor 1 (notifyChange dbNoBday 1 0 initState) = 0) :=
  ⟨WF_initState, Or.inl rfl,
    ((notifyChange_private_or_absent dbNoBday 1 0 initState WF_initState).1
      (Or.inl rfl)).2⟩

/-- Witness for claim C10 at the default day ranges 7 and 14. -/
theorem pastUpcoming_ranges_disjoint_witness :
    ((0 : Int) ≤ 7 ∧ (0 : Int) ≤ 14)
    ∧ inDateRange (dateOf 0) (pastQueryRange 0 7)
    ∧ ¬ inDateRange (dateOf 0) (upcomingQueryRange 0 14) :=
  ⟨⟨by decide, by decide⟩,
    (pastUpcoming_ranges_disjoint db0 0 7 14 (by decide) (by decide)).2.2.1,
    (pastUpcoming_ranges_disjoint db0 0 7 14 (by decide) (by decide)).2.2.2⟩

end Sandpiper
